import Mathlib

set_option maxRecDepth 10000

/-!
Shallow embedding of `src/pseudoRandom.py` (X-PRNG, Python implementation).

The Python class `pseudoRandom` is modelled as a record `PRNGState` together
with pure functions threading the state explicitly.  Machine arithmetic is
modelled on `Nat`/`Int` with explicit `% 2^32` where the source masks or
reduces; Python's `zlib.crc32` is modelled by an executable CRC-32/ISO-HDLC
implementation; `str(...)` on a nonnegative integer is `Nat.repr`; `.encode()`
(UTF-8) is an executable UTF-8 encoder over the string's characters.
-/

namespace XPRNG

/-- One reflected CRC-32 bit step with the zlib polynomial `0xEDB88320`. -/
def crcRound (crc : Nat) : Nat :=
  if crc % 2 = 1 then (crc / 2) ^^^ 0xEDB88320 else crc / 2

/-- Iterate `crcRound` `k` times. -/
def crcBits : Nat → Nat → Nat
  | 0, crc => crc
  | k + 1, crc => crcBits k (crcRound crc)

/-- Absorb one byte into the CRC register: xor the byte in, then 8 bit steps. -/
def crcByte (crc b : Nat) : Nat := crcBits 8 (crc ^^^ b)

/-- CRC-32/ISO-HDLC of a byte list, as computed by Python's `zlib.crc32`:
initial register `0xFFFFFFFF`, reflected polynomial, final xor `0xFFFFFFFF`. -/
def crc32 (bytes : List Nat) : Nat :=
  (bytes.foldl crcByte 0xFFFFFFFF) ^^^ 0xFFFFFFFF

/-- UTF-8 encoding of a single character, as a list of byte values. -/
def utf8Char (c : Char) : List Nat :=
  let n := c.toNat
  if n < 0x80 then [n]
  else if n < 0x800 then [0xC0 + n / 0x40, 0x80 + n % 0x40]
  else if n < 0x10000 then
    [0xE0 + n / 0x1000, 0x80 + (n / 0x40) % 0x40, 0x80 + n % 0x40]
  else
    [0xF0 + n / 0x40000, 0x80 + (n / 0x1000) % 0x40,
     0x80 + (n / 0x40) % 0x40, 0x80 + n % 0x40]

/-- UTF-8 byte encoding of a string (Python's `s.encode()`). -/
def strBytes (s : String) : List Nat :=
  (s.data.map utf8Char).flatten

/-- The instance state of the Python class `pseudoRandom`:
`_a`, `_c`, `_m`, `_RSeed`, `_counter`, and the optional attribute
`_savedRSeed`.  `savedSeed = none` models the attribute being absent
(it is only created by `saveState`); Python raises `AttributeError` when
`restoreState` reads it in that situation. -/
structure PRNGState where
  a : Nat
  c : Nat
  m : Nat
  seed : Nat
  counter : Nat
  savedSeed : Option Nat
  deriving DecidableEq, Repr

/-- The seed argument accepted by `__init__` / `reSeed`: a text string, a
number (already truncated to an integer, as Python's `int(seed)` does), or
absent (`None`), in which case the wall-clock time in whole seconds is used. -/
inductive Seed where
  | str (s : String)
  | num (n : Int)
  | absent
  deriving DecidableEq, Repr

/-- Seed derivation of `__init__` (lines 57-62): CRC-32 of the UTF-8 bytes for
a string, `abs(int(seed))` for a number, the current Unix time (passed here as
the explicit parameter `time`) when absent. -/
def seedValue (time : Nat) : Seed → Nat
  | .str s => crc32 (strBytes s) &&& 0xffffffff
  | .num n => n.natAbs
  | .absent => time

/-- The body of `__init__` (lines 45-63), parameterised by the wall-clock
`time` and by the value of the `_savedRSeed` attribute the object already
carries (`none` on a brand-new object).  `__init__` sets `_a`, `_c`, `_m`,
`_counter` and `_RSeed` but never touches `_savedRSeed`. -/
def initBody (time : Nat) (seed : Seed) (saved : Option Nat) : PRNGState :=
  { a := 1664525
    c := 1013904223
    m := 4294967296
    seed := seedValue time seed
    counter := 0
    savedSeed := saved }

/-- Construction `pseudoRandom(seed)`: a fresh object has no `_savedRSeed`
attribute. -/
def mkFresh (time : Nat) (seed : Seed) : PRNGState :=
  initBody time seed Option.none

/-- `reSeed` (lines 65-71) simply calls `self.__init__(seed)` on the existing
object, so the `_savedRSeed` attribute, if present, survives. -/
def reSeed (st : PRNGState) (time : Nat) (seed : Seed) : PRNGState :=
  initBody time seed st.savedSeed

/-- `saveState` (lines 73-77): `self._savedRSeed = self._RSeed`. -/
def saveState (st : PRNGState) : PRNGState :=
  { st with savedSeed := Option.some st.seed }

/-- `restoreState` (lines 79-84): the guard `if self._savedRSeed is not None`
itself reads the attribute, so when `_savedRSeed` was never created Python
raises `AttributeError`; that failure is modelled by `none`.  When the
attribute exists (it is then always an integer, never Python's `None`),
`_RSeed` is overwritten with it. -/
def restoreState (st : PRNGState) : Option PRNGState :=
  match st.savedSeed with
  | Option.none => Option.none
  | Option.some v => Option.some { st with seed := v }

/-- The string `str(self._counter) + str(self._RSeed) + str(self._counter)`
hashed on line 94. -/
def incrementString (st : PRNGState) : String :=
  Nat.repr st.counter ++ Nat.repr st.seed ++ Nat.repr st.counter

/-- `randInt` (lines 86-97).  Returns the drawn integer and the updated state.
Line 97, `int((self._RSeed / self._m) * (max - min + 1) + min)`, divides in
IEEE-754 doubles; here the same expression is evaluated in exact arithmetic,
with `int(...)` as truncation toward zero (`Int.tdiv`): for `m = 2^32` the
rational value is `(RSeed' * (max - min + 1) + min * m) / m`.  The double
computation is exact (hence agrees with this model bit-for-bit) only while
the intermediate products and sums stay below `2^53` in magnitude; beyond
that the doubles round and this model diverges from the code.  The theorems
below about the return value therefore either carry that bound as an explicit
hypothesis or instantiate ranges inside the exact regime. -/
def randInt (st : PRNGState) (lo hi : Int) : Int × PRNGState :=
  let c := crc32 (strBytes (incrementString st)) &&& 0xffffffff
  let seed := (st.seed * st.a + c) % st.m
  let value := Int.tdiv ((seed : Int) * (hi - lo + 1) + lo * (st.m : Int)) (st.m : Int)
  (value, { st with c := c, seed := seed, counter := st.counter + 1 })

/-- `n` consecutive `randInt lo hi` draws, returning the values in draw order
together with the final state. -/
def drawSeq : PRNGState → Nat → Int → Int → List Int × PRNGState
  | st, 0, _, _ => ([], st)
  | st, n + 1, lo, hi =>
    let (v, st') := randInt st lo hi
    let (vs, st'') := drawSeq st' n lo hi
    (v :: vs, st'')

/-- The loop of `randBytes` (lines 108-117): each iteration draws
`randInt(32, 126)` when `readable` else `randInt(0, 255)` and appends the
value. -/
def randBytesLoop (readable : Bool) : PRNGState → Nat → List Int × PRNGState
  | st, 0 => ([], st)
  | st, n + 1 =>
    let (b, st') := if readable then randInt st 32 126 else randInt st 0 255
    let (bs, st'') := randBytesLoop readable st' n
    (b :: bs, st'')

/-- Return value of `randBytes`: either the list of raw integers
(`decimal=True`) or the string of the corresponding characters
(`''.join(chr(byte) ...)`). -/
inductive BytesResult where
  | decimal (values : List Int)
  | text (s : String)
  deriving DecidableEq, Repr

/-- Python's `chr` for the byte values produced here (all in `[0, 255]`). -/
def chrByte (b : Int) : Char := Char.ofNat b.toNat

/-- `randBytes` (lines 99-118). -/
def randBytes (st : PRNGState) (length : Nat) (decimal readable : Bool) :
    BytesResult × PRNGState :=
  let (bs, st') := randBytesLoop readable st length
  (if decimal then BytesResult.decimal bs
   else BytesResult.text (String.mk (bs.map chrByte)), st')

/-- A call to the generator's public drawing interface. -/
inductive Call where
  | rInt (lo hi : Int)
  | rBytes (length : Nat) (decimal readable : Bool)
  deriving DecidableEq, Repr

/-- The value returned by one call. -/
inductive Out where
  | int (v : Int)
  | bytes (b : BytesResult)
  deriving DecidableEq, Repr

/-- Run a sequence of calls on a generator, collecting the outputs in order. -/
def runCalls : PRNGState → List Call → List Out × PRNGState
  | st, [] => ([], st)
  | st, Call.rInt lo hi :: cs =>
    let (v, st') := randInt st lo hi
    let (os, st'') := runCalls st' cs
    (Out.int v :: os, st'')
  | st, Call.rBytes n d r :: cs =>
    let (b, st') := randBytes st n d r
    let (os, st'') := runCalls st' cs
    (Out.bytes b :: os, st'')

/-- Agreement on the fields that the drawing functions read: the multiplier,
the modulus, the seed and the counter.  (`_c` is overwritten before every use
and `_savedRSeed` is never read by a draw.) -/
def coreEq (s t : PRNGState) : Prop :=
  s.a = t.a ∧ s.m = t.m ∧ s.seed = t.seed ∧ s.counter = t.counter

/-- The output formula as the SPEC states it (§4.3 step 5 and claim C2):
`floor((seed / modulus) * (max - min + 1)) + min`, with `seed` the
post-update seed.  Written with `Int.fdiv`, the floor division. -/
def specOutput (seed : Nat) (lo hi : Int) : Int :=
  Int.fdiv ((seed : Int) * (hi - lo + 1)) 4294967296 + lo

end XPRNG

/-- CRC-32 sanity vector: the standard check value for the ASCII string
"123456789" is `0xCBF43926`. -/
theorem crc32_check_vector : XPRNG.crc32 (XPRNG.strBytes "123456789") = 0xCBF43926 := by
  decide

/-- Seeding with the string "test" yields the CRC-32 of UTF-8 "test"
(`0xD87F7E0C`), matching `zlib.crc32(b"test")`. -/
theorem seed_string_test :
    XPRNG.seedValue 0 (XPRNG.Seed.str "test") = 0xD87F7E0C := by
  decide

open XPRNG

/-- C1: every `randInt` call updates the state by: increment := CRC-32 (masked
to 32 bits) of the UTF-8 bytes of `str(counter) + str(seed) + str(counter)`
built from the pre-update seed and pre-increment counter; then
`seed := (seed * 1664525 + increment) % 2^32`; then `counter := counter + 1`. -/
theorem randInt_transition (st : PRNGState) (lo hi : Int)
    (ha : st.a = 1664525) (hm : st.m = 4294967296) :
    (randInt st lo hi).2 =
      { st with
        c := crc32 (strBytes (Nat.repr st.counter ++ Nat.repr st.seed ++
               Nat.repr st.counter)) &&& 0xffffffff
        seed := (st.seed * 1664525 +
          (crc32 (strBytes (Nat.repr st.counter ++ Nat.repr st.seed ++
             Nat.repr st.counter)) &&& 0xffffffff)) % 4294967296
        counter := st.counter + 1 } := by
  simp [randInt, incrementString, ha, hm]

/-- Witness for `randInt_transition` at the concrete generator seeded with 42. -/
theorem randInt_transition_witness :
    (randInt (mkFresh 0 (Seed.num 42)) 0 255).2 =
      { mkFresh 0 (Seed.num 42) with
        c := crc32 (strBytes (Nat.repr (mkFresh 0 (Seed.num 42)).counter ++
               Nat.repr (mkFresh 0 (Seed.num 42)).seed ++
               Nat.repr (mkFresh 0 (Seed.num 42)).counter)) &&& 0xffffffff
        seed := ((mkFresh 0 (Seed.num 42)).seed * 1664525 +
          (crc32 (strBytes (Nat.repr (mkFresh 0 (Seed.num 42)).counter ++
             Nat.repr (mkFresh 0 (Seed.num 42)).seed ++
             Nat.repr (mkFresh 0 (Seed.num 42)).counter)) &&& 0xffffffff)) % 4294967296
        counter := (mkFresh 0 (Seed.num 42)).counter + 1 } :=
  randInt_transition (mkFresh 0 (Seed.num 42)) 0 255 rfl rfl

/-- C4 (failing input): on the generator seeded with 42, `randInt(-1, -1)`
returns 0, which is outside the requested range `[-1, -1]`: Python's `int()`
truncates toward zero, so `int(x - 1) = 0` for the fractional `x ∈ (0, 1)`
produced here. -/
theorem randInt_out_of_range :
    (randInt (mkFresh 0 (Seed.num 42)) (-1) (-1)).1 = 0 ∧
      ¬(-1 ≤ (randInt (mkFresh 0 (Seed.num 42)) (-1) (-1)).1 ∧
         (randInt (mkFresh 0 (Seed.num 42)) (-1) (-1)).1 ≤ -1) := by
  decide

/-- C5 (failing behaviour): `restoreState` on a freshly constructed generator
reads the never-created `_savedRSeed` attribute; Python raises
`AttributeError` (modelled by `none`), an unguarded undefined-state access
rather than a no-op or a guarded error. -/
theorem restoreState_no_snapshot_error (time : Nat) (s : Seed) :
    restoreState (mkFresh time s) = Option.none := rfl

/-- C6 (counterexample): re-seeding does not reproduce a fresh construction:
a snapshot taken before `reSeed` survives it, because `__init__` never clears
`_savedRSeed`. -/
theorem reSeed_keeps_snapshot :
    reSeed (saveState (mkFresh 0 (Seed.num 1))) 0 (Seed.num 2) ≠
      mkFresh 0 (Seed.num 2) := by
  decide

/-- C6 (amended): `reSeed(s)` resets `_a`, `_c`, `_m`, `_RSeed` and `_counter`
exactly as a fresh construction with seed `s` does, but leaves `_savedRSeed`
untouched: the reseeded state is the fresh state with the old snapshot field
carried over. -/
theorem reSeed_eq_fresh_except_savedSeed (st : PRNGState) (time : Nat) (s : Seed) :
    reSeed st time s = { mkFresh time s with savedSeed := st.savedSeed } := rfl

/-- C10: when a snapshot exists, `restoreState` overwrites only `seed` (with
the snapshot value), leaving `counter`, `savedSeed` and every other field
unchanged; it is idempotent; and immediately after `saveState` it leaves the
whole state unchanged. -/
theorem restoreState_frame (st : PRNGState) (v : Nat)
    (h : st.savedSeed = Option.some v) :
    restoreState st = Option.some { st with seed := v }
    ∧ (restoreState st).bind restoreState = restoreState st
    ∧ restoreState (saveState st) = Option.some (saveState st) := by
  refine ⟨?_, ?_, ?_⟩ <;> simp [restoreState, saveState, h]

/-- Witness for `restoreState_frame` on a generator seeded with 5 whose state
was just saved. -/
theorem restoreState_frame_witness :
    restoreState (saveState (mkFresh 0 (Seed.num 5))) =
        Option.some { saveState (mkFresh 0 (Seed.num 5)) with seed := 5 }
    ∧ (restoreState (saveState (mkFresh 0 (Seed.num 5)))).bind restoreState =
        restoreState (saveState (mkFresh 0 (Seed.num 5)))
    ∧ restoreState (saveState (saveState (mkFresh 0 (Seed.num 5)))) =
        Option.some (saveState (saveState (mkFresh 0 (Seed.num 5)))) :=
  restoreState_frame (saveState (mkFresh 0 (Seed.num 5))) 5 rfl

/-- `restoreState` on a state whose snapshot attribute holds `v` overwrites
the seed with `v` and nothing else. -/
theorem restoreState_some (st : PRNGState) (v : Nat)
    (h : st.savedSeed = Option.some v) :
    restoreState st = Option.some { st with seed := v } := by
  unfold restoreState
  rw [h]

/-- Unfolding of one `drawSeq` step. -/
theorem drawSeq_succ (st : PRNGState) (n : Nat) (lo hi : Int) :
    drawSeq st (n + 1) lo hi =
      ((randInt st lo hi).1 :: (drawSeq (randInt st lo hi).2 n lo hi).1,
       (drawSeq (randInt st lo hi).2 n lo hi).2) := rfl

/-- `randInt` never touches the `_savedRSeed` attribute. -/
theorem randInt_savedSeed (st : PRNGState) (lo hi : Int) :
    (randInt st lo hi).2.savedSeed = st.savedSeed := rfl

/-- A sequence of draws never touches the `_savedRSeed` attribute. -/
theorem drawSeq_savedSeed (n : Nat) : ∀ (st : PRNGState) (lo hi : Int),
    (drawSeq st n lo hi).2.savedSeed = st.savedSeed := by
  induction n with
  | zero => intro st lo hi; rfl
  | succ k ih =>
    intro st lo hi
    rw [drawSeq_succ]
    exact (ih (randInt st lo hi).2 lo hi).trans (randInt_savedSeed st lo hi)

/-- C2 (counterexample): on the generator seeded with 42, `randInt(-1, -1)`
returns 0, while the spec formula `floor((seed' / 2^32) * (max - min + 1)) + min`
gives -1: Python's `int()` truncates toward zero, which differs from
`floor(...) + min` once `min` is negative. -/
theorem randInt_not_floor_formula :
    (randInt (mkFresh 0 (Seed.num 42)) (-1) (-1)).1 ≠
      specOutput (randInt (mkFresh 0 (Seed.num 42)) (-1) (-1)).2.seed (-1) (-1) := by
  decide

/-- C2 (amended): for `0 ≤ min ≤ max` with
`(2^32 - 1) * (max - min + 1) + min * 2^32 < 2^53`, the value returned by
`randInt` equals `floor((seed' / 2^32) * (max - min + 1)) + min` with `seed'`
the seed after the step-3 update of that call.  The bound restricts the claim
to inputs on which line 97's IEEE-754 double computation is exact and hence
agrees with the exact-arithmetic model: `seed' / 2^32` is always exact
(`seed' < 2^32` and the divisor is a power of two); under the bound the true
product `seed' * (max - min + 1) / 2^32` and the true sum
`(seed' * (max - min + 1) + min * 2^32) / 2^32` have integer numerators below
`2^53`, so both are representable and the multiply and add round to them
exactly; `int()` of an exact double is exact.  Outside the bound the doubles
round (e.g. `seed' = 2147483647`, `min = 0`, `max = 2^53 + 1` yields
4503599625273345 from the code but 4503599625273344 from the floor formula),
and for negative `min` the truncation `int()` departs from the floor formula
(`randInt_not_floor_formula`). -/
theorem randInt_floor_formula (st : PRNGState) (lo hi : Int)
    (hm : st.m = 4294967296) (h0 : 0 ≤ lo) (hle : lo ≤ hi)
    (_h53 : 4294967295 * (hi - lo + 1) + lo * 4294967296 < 9007199254740992) :
    (randInt st lo hi).1 = specOutput (randInt st lo hi).2.seed lo hi := by
  simp only [randInt, specOutput, hm]
  have hcast : ((4294967296 : Nat) : Int) = 4294967296 := by norm_num
  rw [hcast]
  set s' := (st.seed * st.a + (crc32 (strBytes (incrementString st)) &&& 0xffffffff))
      % 4294967296 with hs'
  have hr : (0 : Int) ≤ hi - lo + 1 := by omega
  have hA : (0 : Int) ≤ (s' : Int) * (hi - lo + 1) :=
    mul_nonneg (Int.natCast_nonneg s') hr
  have hnum : (0 : Int) ≤ (s' : Int) * (hi - lo + 1) + lo * 4294967296 := by
    have : (0 : Int) ≤ lo * 4294967296 := mul_nonneg h0 (by norm_num)
    omega
  rw [Int.tdiv_eq_ediv hnum (by norm_num), Int.fdiv_eq_ediv _ (by norm_num),
    Int.add_mul_ediv_right _ _ (by norm_num : (4294967296 : Int) ≠ 0)]

/-- Witness for `randInt_floor_formula` at seed 42 and range `[0, 255]`
(where `(2^32 - 1) * 256 < 2^53`, so the double computation is exact). -/
theorem randInt_floor_formula_witness :
    (randInt (mkFresh 0 (Seed.num 42)) 0 255).1 =
      specOutput (randInt (mkFresh 0 (Seed.num 42)) 0 255).2.seed 0 255 :=
  randInt_floor_formula (mkFresh 0 (Seed.num 42)) 0 255 rfl (by decide) (by decide)
    (by decide)

/-- C3 (counterexample): save the state of the generator seeded with 42; the
draw taken immediately after the save yields 1036962894 (over the full 32-bit
range), but after one intervening draw and a restore the same draw yields a
different value: the increment is re-derived from the counter, which the
restore does not rewind. -/
theorem restore_draw_differs :
    (restoreState ((randInt (saveState (mkFresh 0 (Seed.num 42))) 0 255).2)).map
        (fun t => (randInt t 0 4294967295).1) ≠
      Option.some ((randInt (saveState (mkFresh 0 (Seed.num 42))) 0 4294967295).1) := by
  decide

/-- C3 (amended): after `saveState` and any number of draws, `restoreState`
does put the saved seed value back (the same seed feeds the next LCG step);
and with zero intervening draws the post-restore draw reproduces the
post-save draw.  With intervening draws the counters differ, so the
re-derived increments — and hence the drawn values — generally differ
(`restore_draw_differs`). -/
theorem restore_after_draws (st : PRNGState) (n : Nat) (lo hi lo' hi' : Int) :
    (restoreState ((drawSeq (saveState st) n lo hi).2)).map PRNGState.seed =
        Option.some st.seed
    ∧ (restoreState (saveState st)).map (fun t => (randInt t lo' hi').1) =
        Option.some ((randInt (saveState st) lo' hi').1) := by
  constructor
  · have h : ((drawSeq (saveState st) n lo hi).2).savedSeed = Option.some st.seed :=
      (drawSeq_savedSeed n (saveState st) lo hi).trans rfl
    rw [restoreState_some _ _ h]
    rfl
  · rw [restoreState_some (saveState st) st.seed rfl]
    rfl

/-- Unfolding of one `randBytesLoop` step. -/
theorem randBytesLoop_succ (readable : Bool) (st : PRNGState) (n : Nat) :
    randBytesLoop readable st (n + 1) =
      ((if readable then randInt st 32 126 else randInt st 0 255).1 ::
        (randBytesLoop readable
          (if readable then randInt st 32 126 else randInt st 0 255).2 n).1,
       (randBytesLoop readable
          (if readable then randInt st 32 126 else randInt st 0 255).2 n).2) := rfl

/-- The `randBytes` loop is exactly a sequence of `randInt` draws with the
bounds selected by `readable`. -/
theorem randBytesLoop_eq_drawSeq (readable : Bool) (n : Nat) : ∀ st : PRNGState,
    randBytesLoop readable st n =
      drawSeq st n (if readable then 32 else 0) (if readable then 126 else 255) := by
  induction n with
  | zero => intro st; rfl
  | succ k ih =>
    intro st
    cases readable <;> simp [randBytesLoop_succ, drawSeq_succ, ih]

/-- C7: `randBytes(n, decimal, readable)` performs exactly `n` consecutive
`randInt` draws on the shared state (range `[32, 126]` when `readable`, else
`[0, 255]`); with `decimal` it returns the raw integers in draw order, else
the string of the characters at those code points; in particular
`randBytes(n, decimal=True)` on a fresh seed equals `n` consecutive
`randInt(0, 255)` calls on a fresh instance with that seed. -/
theorem randBytes_draw_composition (st : PRNGState) (n : Nat) (readable : Bool)
    (time : Nat) (s : Seed) :
    randBytes st n true readable =
      (BytesResult.decimal
        (drawSeq st n (if readable then 32 else 0) (if readable then 126 else 255)).1,
       (drawSeq st n (if readable then 32 else 0) (if readable then 126 else 255)).2)
    ∧ randBytes st n false readable =
      (BytesResult.text (String.mk
        ((drawSeq st n (if readable then 32 else 0)
            (if readable then 126 else 255)).1.map chrByte)),
       (drawSeq st n (if readable then 32 else 0) (if readable then 126 else 255)).2)
    ∧ randBytes (mkFresh time s) n true false =
      (BytesResult.decimal (drawSeq (mkFresh time s) n 0 255).1,
       (drawSeq (mkFresh time s) n 0 255).2) := by
  refine ⟨?_, ?_, ?_⟩ <;> simp [randBytes, randBytesLoop_eq_drawSeq]

/-- The counter advances by exactly one per draw across a sequence of draws. -/
theorem drawSeq_counter (n : Nat) : ∀ (st : PRNGState) (lo hi : Int),
    (drawSeq st n lo hi).2.counter = st.counter + n := by
  induction n with
  | zero => intro st lo hi; rfl
  | succ k ih =>
    intro st lo hi
    rw [drawSeq_succ, ih]
    have h1 : (randInt st lo hi).2.counter = st.counter + 1 := rfl
    omega

/-- C8: after any draw the seed is reduced mod `2^32`, hence lies in
`[0, 2^32)`; each draw increases the counter by exactly 1; and after `n`
draws on a freshly constructed or reseeded generator the counter equals `n`. -/
theorem randInt_invariants (st st₀ : PRNGState) (lo hi : Int) (n : Nat)
    (time : Nat) (s : Seed) (hm : st.m = 4294967296) :
    (randInt st lo hi).2.seed < 4294967296
    ∧ (randInt st lo hi).2.counter = st.counter + 1
    ∧ (drawSeq (mkFresh time s) n lo hi).2.counter = n
    ∧ (drawSeq (reSeed st₀ time s) n lo hi).2.counter = n := by
  refine ⟨?_, rfl, ?_, ?_⟩
  · have h : (randInt st lo hi).2.seed =
        (st.seed * st.a + (crc32 (strBytes (incrementString st)) &&& 0xffffffff))
          % st.m := rfl
    rw [h, hm]
    exact Nat.mod_lt _ (by norm_num)
  · rw [drawSeq_counter]
    simp [mkFresh, initBody]
  · rw [drawSeq_counter]
    simp [reSeed, initBody]

/-- Witness for `randInt_invariants` on concrete generators seeded with 42
and 1. -/
theorem randInt_invariants_witness :
    (randInt (mkFresh 0 (Seed.num 42)) 0 255).2.seed < 4294967296
    ∧ (randInt (mkFresh 0 (Seed.num 42)) 0 255).2.counter =
        (mkFresh 0 (Seed.num 42)).counter + 1
    ∧ (drawSeq (mkFresh 0 (Seed.num 7)) 2 0 255).2.counter = 2
    ∧ (drawSeq (reSeed (mkFresh 0 (Seed.num 1)) 0 (Seed.num 7)) 2 0 255).2.counter = 2 :=
  randInt_invariants (mkFresh 0 (Seed.num 42)) (mkFresh 0 (Seed.num 1))
    0 255 2 0 (Seed.num 7) rfl

/-- A single draw reads only the core fields: core-equal states produce the
same value and remain core-equal (the fresh increment is recomputed from the
counter and seed, never read from the previous `_c`). -/
theorem randInt_coreEq (s t : PRNGState) (lo hi : Int) (h : coreEq s t) :
    (randInt s lo hi).1 = (randInt t lo hi).1
    ∧ coreEq (randInt s lo hi).2 (randInt t lo hi).2 := by
  obtain ⟨ha, hm, hs, hc⟩ := h
  refine ⟨?_, ?_, ?_, ?_, ?_⟩ <;>
    simp [randInt, incrementString, ha, hm, hs, hc]

/-- Draw sequences preserve core equality and produce identical value lists. -/
theorem drawSeq_coreEq (n : Nat) : ∀ (s t : PRNGState) (lo hi : Int),
    coreEq s t →
      (drawSeq s n lo hi).1 = (drawSeq t n lo hi).1
      ∧ coreEq (drawSeq s n lo hi).2 (drawSeq t n lo hi).2 := by
  induction n with
  | zero => intro s t lo hi h; exact ⟨rfl, h⟩
  | succ k ih =>
    intro s t lo hi h
    obtain ⟨hv, h'⟩ := randInt_coreEq s t lo hi h
    obtain ⟨hvs, h''⟩ := ih (randInt s lo hi).2 (randInt t lo hi).2 lo hi h'
    rw [drawSeq_succ, drawSeq_succ]
    exact ⟨by rw [hv, hvs], h''⟩

/-- `randBytes` reads only the core fields. -/
theorem randBytes_coreEq (s t : PRNGState) (n : Nat) (d r : Bool)
    (h : coreEq s t) :
    (randBytes s n d r).1 = (randBytes t n d r).1
    ∧ coreEq (randBytes s n d r).2 (randBytes t n d r).2 := by
  obtain ⟨hvs, h'⟩ := drawSeq_coreEq n s t
    (if r then 32 else 0) (if r then 126 else 255) h
  constructor
  · show (if d then _ else _) = (if d then _ else _)
    rw [randBytesLoop_eq_drawSeq, randBytesLoop_eq_drawSeq, hvs]
  · show coreEq (randBytesLoop r s n).2 (randBytesLoop r t n).2
    rw [randBytesLoop_eq_drawSeq, randBytesLoop_eq_drawSeq]
    exact h'

/-- C9: the outputs of a call sequence are a function of the multiplier,
modulus, seed and counter alone — in particular they do not depend on the
leftover `_c` of a previous draw or on `_savedRSeed`.  Since construction
fixes the multiplier and modulus and determines the seed from the seed input,
a fixed seed input and a fixed call sequence always reproduce bit-for-bit
identical outputs. -/
theorem runCalls_deterministic (s t : PRNGState) (calls : List Call)
    (h : coreEq s t) :
    (runCalls s calls).1 = (runCalls t calls).1 := by
  induction calls generalizing s t with
  | nil => rfl
  | cons c cs ih =>
    cases c with
    | rInt lo hi =>
      obtain ⟨hv, h'⟩ := randInt_coreEq s t lo hi h
      show Out.int (randInt s lo hi).1 :: (runCalls (randInt s lo hi).2 cs).1 =
        Out.int (randInt t lo hi).1 :: (runCalls (randInt t lo hi).2 cs).1
      rw [hv, ih _ _ h']
    | rBytes n d r =>
      obtain ⟨hv, h'⟩ := randBytes_coreEq s t n d r h
      show Out.bytes (randBytes s n d r).1 :: (runCalls (randBytes s n d r).2 cs).1 =
        Out.bytes (randBytes t n d r).1 :: (runCalls (randBytes t n d r).2 cs).1
      rw [hv, ih _ _ h']

/-- Witness for `runCalls_deterministic`: two generators seeded with 42 that
differ in the leftover increment and in the snapshot attribute produce the
same outputs on a mixed call sequence. -/
theorem runCalls_deterministic_witness :
    (runCalls { mkFresh 0 (Seed.num 42) with c := 0, savedSeed := Option.some 3 }
      [Call.rInt 0 255, Call.rBytes 2 false true, Call.rInt 10 20]).1 =
    (runCalls (mkFresh 0 (Seed.num 42))
      [Call.rInt 0 255, Call.rBytes 2 false true, Call.rInt 10 20]).1 :=
  runCalls_deterministic
    { mkFresh 0 (Seed.num 42) with c := 0, savedSeed := Option.some 3 }
    (mkFresh 0 (Seed.num 42))
    [Call.rInt 0 255, Call.rBytes 2 false true, Call.rInt 10 20]
    ⟨rfl, rfl, rfl, rfl⟩
